import Mathlib

/-!
Verification of the MQTT bridging engine of the `zigbeemcp` smart-home
repository: the message bus (`src/smarthome/mqtt.py`) and the device
controller built on top of it (`src/smarthome/api/device_controller.py`).

The Python code is shallowly embedded: JSON payloads become an inductive
`Json` type with Python truthiness and `str()` conversion; the bus's four
shared dictionaries become association lists inside a `BusState` record;
the dispatch callback `_on_message`, the polling loops of `rpc` and
`wait_for`, and the controller operations become pure Lean functions over
explicit traces of delivery/poll events, so that the interleaving of the
broker delivery thread with a caller's poll loop is explicit.
-/

set_option autoImplicit false

/-- JSON values as produced by `json.loads`: objects keep field order, and
numbers are modelled as integers (the payload fields handled by this code
are integers and enumerated strings). -/
inductive Json where
  | null : Json
  | bool (b : Bool) : Json
  | num (n : Int) : Json
  | str (s : String) : Json
  | arr (xs : List Json) : Json
  | obj (fields : List (String × Json)) : Json

/-- Python truthiness of a JSON value (`if payload:` / `or` chains):
`None`, `False`, `0`, `""`, `[]` and `{}` are falsy. -/
def jTruthy : Json → Bool
  | Json.null => false
  | Json.bool b => b
  | Json.num n => n != 0
  | Json.str s => s != ""
  | Json.arr xs => !xs.isEmpty
  | Json.obj fs => !fs.isEmpty

mutual

/-- Python `str()` of a JSON value (`repr` for containers), as applied by
`_on_message` to the correlation field value. -/
def pyStr : Json → String
  | Json.null => "None"
  | Json.bool b => cond b "True" "False"
  | Json.num n => toString n
  | Json.str s => s
  | Json.arr xs => "[" ++ pyStrArr xs ++ "]"
  | Json.obj fs => "\x7b" ++ pyStrObj fs ++ "\x7d"

/-- Comma-separated `repr` of array elements. -/
def pyStrArr : List Json → String
  | [] => ""
  | [x] => pyRepr x
  | x :: xs => pyRepr x ++ ", " ++ pyStrArr xs

/-- Comma-separated `repr` of object entries. -/
def pyStrObj : List (String × Json) → String
  | [] => ""
  | [kv] => "\x27" ++ kv.1 ++ "\x27: " ++ pyRepr kv.2
  | kv :: kvs => "\x27" ++ kv.1 ++ "\x27: " ++ pyRepr kv.2 ++ ", " ++ pyStrObj kvs

/-- Python `repr()` of a JSON value (differs from `str` on strings only). -/
def pyRepr : Json → String
  | Json.null => "None"
  | Json.bool b => cond b "True" "False"
  | Json.num n => toString n
  | Json.str s => "\x27" ++ s ++ "\x27"
  | Json.arr xs => "[" ++ pyStrArr xs ++ "]"
  | Json.obj fs => "\x7b" ++ pyStrObj fs ++ "\x7d"

end

/-- First-occurrence lookup in an association list: Python `d.get(k)` /
`d[k]` (keys of a Python dict are unique, so first occurrence is the
occurrence). -/
def lookupA {α : Type} : List (String × α) → String → Option α
  | [], _ => none
  | (k, v) :: rest, key => if k = key then some v else lookupA rest key

/-- `d[k] = v` on a Python dict: replace the value at an existing key in
place, else append the new binding at the end. -/
def updateA {α : Type} : List (String × α) → String → α → List (String × α)
  | [], key, v => [(key, v)]
  | (k, w) :: rest, key, v =>
    if k = key then (k, v) :: rest else (k, w) :: updateA rest key v

/-- `d.pop(k, None)`'s removal effect: drop the binding for `key` (keys of
a Python dict are unique, so dropping every occurrence coincides). -/
def eraseA {α : Type} : List (String × α) → String → List (String × α)
  | [], _ => []
  | (k, v) :: rest, key =>
    if k = key then eraseA rest key else (k, v) :: eraseA rest key

theorem lookupA_updateA_self {α : Type} (l : List (String × α)) (key : String) (v : α) :
    lookupA (updateA l key v) key = some v := by
  induction l with
  | nil => simp [updateA, lookupA]
  | cons kv rest ih =>
    obtain ⟨k, w⟩ := kv
    by_cases h : k = key
    · simp [updateA, lookupA, h]
    · simp [updateA, lookupA, h, ih]

theorem lookupA_updateA_ne {α : Type} (l : List (String × α)) (key key2 : String) (v : α)
    (h : key2 ≠ key) : lookupA (updateA l key v) key2 = lookupA l key2 := by
  induction l with
  | nil => simp [updateA, lookupA, Ne.symm h]
  | cons kv rest ih =>
    obtain ⟨k, w⟩ := kv
    by_cases hk : k = key
    · subst hk
      simp [updateA, lookupA, Ne.symm h]
    · by_cases hk2 : k = key2
      · simp [updateA, lookupA, hk, hk2, h]
      · simp [updateA, lookupA, hk, hk2, ih]

theorem lookupA_eraseA_self {α : Type} (l : List (String × α)) (key : String) :
    lookupA (eraseA l key) key = none := by
  induction l with
  | nil => simp [eraseA, lookupA]
  | cons kv rest ih =>
    obtain ⟨k, w⟩ := kv
    by_cases h : k = key
    · simp [eraseA, h, ih]
    · simp [eraseA, lookupA, h, ih]

theorem lookupA_eraseA_ne {α : Type} (l : List (String × α)) (key key2 : String)
    (h : key2 ≠ key) : lookupA (eraseA l key) key2 = lookupA l key2 := by
  induction l with
  | nil => simp [eraseA, lookupA]
  | cons kv rest ih =>
    obtain ⟨k, w⟩ := kv
    by_cases hk : k = key
    · subst hk
      simp [eraseA, lookupA, Ne.symm h, ih]
    · simp [eraseA, lookupA, hk, ih]

/-- The configured topic namespace (`Z2M_BASE`, default `"zigbee2mqtt"`),
shared by `mqtt.py` and `device_controller.py`. -/
def Z2M_BASE : String := "zigbee2mqtt"

/-- A registered message handler. Its only observable effect for the bus is
whether it returns normally or raises (`Except.error`); captured-state
effects of controller closures are modelled at the call sites that read
them. -/
def Handler : Type := String → Json → Except String Unit

/-- The four shared dictionaries of `MqttBus`, all mutated under one lock:
`_topic_handlers`, `_prefix_handlers` (fan-out by key), `_wait_by_key` (the
correlation table) and `_one_shot` (the snapshot-slot table). -/
structure BusState where
  topicHandlers : List (String × Handler)
  fanHandlers : List (String × Handler)
  waitByKey : List (String × (String × Json))
  oneShot : List (String × Json)

/-- A bus with no registered handlers and empty tables. -/
def emptyBus : BusState := ⟨[], [], [], []⟩

/-- `topic.startswith(pat)`: string prefix test, computed on the character
sequences (equivalent to the byte-level test on UTF-8 strings). -/
def strStarts (s pat : String) : Bool := pat.data.isPrefixOf s.data

/-- `str(payload.get("transaction") or payload.get("id") or "")` from
`_on_message`: Python `or` falls through on falsy values, and the final
result is converted with `str()`. -/
def corrKey (fields : List (String × Json)) : String :=
  pyStr (match lookupA fields "transaction" with
         | some v =>
           if jTruthy v then v
           else
             match lookupA fields "id" with
             | some w => if jTruthy w then w else Json.str ""
             | none => Json.str ""
         | none =>
           match lookupA fields "id" with
           | some w => if jTruthy w then w else Json.str ""
           | none => Json.str "")

/-- `MqttBus._on_message`, the whole body running under the bus lock:
(1) invoke the exact-topic handler if one exists, swallowing any exception;
(2) invoke every fan-out handler whose key prefixes the topic, each with
its own swallowed exception; (3) if the payload is a dict with a truthy
correlation field, insert/overwrite the correlation entry; (4) if a
snapshot slot exists for the topic, overwrite it with the payload.
Returns the updated tables together with the record of each handler
invocation (key and the outcome the dispatch ignored). -/
def onMessage (st : BusState) (topic : String) (payload : Json) :
    BusState × List (String × Except String Unit) :=
  let exactCalls :=
    match lookupA st.topicHandlers topic with
    | some h => [(topic, h topic payload)]
    | none => []
  let fanCalls :=
    (st.fanHandlers.filter (fun pc => strStarts topic pc.1)).map
      (fun pc => (pc.1, pc.2 topic payload))
  let wb :=
    match payload with
    | Json.obj fields =>
      let key := corrKey fields
      if key = "" then st.waitByKey else updateA st.waitByKey key (topic, payload)
    | _ => st.waitByKey
  let os :=
    match lookupA st.oneShot topic with
    | some _ => updateA st.oneShot topic payload
    | none => st.oneShot
  ({ st with waitByKey := wb, oneShot := os }, exactCalls ++ fanCalls)

/-- The state effect of a dispatch, ignoring the handler invocation record. -/
def onMessageState (st : BusState) (topic : String) (payload : Json) : BusState :=
  (onMessage st topic payload).1

/-- `_try_json`. The Python runtime primitives are passed as oracles:
`strictDecode` is the outcome of `data.decode()` (`none` when the bytes are
not valid UTF-8, making the bare `except` fire), `lossyDecode` the result
of `data.decode("utf-8", "ignore")`, and `loads` the behavior of
`json.loads` on strings (`none` when it raises). -/
def tryJson (strictDecode : Option String) (lossyDecode : String)
    (loads : String → Option Json) : Json :=
  match strictDecode with
  | some s =>
    if s = "" then Json.obj []
    else
      match loads s with
      | some j => j
      | none => Json.obj [("_raw", Json.str lossyDecode)]
  | none => Json.obj [("_raw", Json.str lossyDecode)]

/-- One atomic step interleaved with a `wait_for` caller: either the
delivery thread dispatches a message (taking the lock), or the caller runs
one iteration of its poll loop (taking the lock). -/
inductive WfEvent where
  | deliver (topic : String) (payload : Json) : WfEvent
  | poll : WfEvent

/-- The slot-creation step of `wait_for`: `self._one_shot[topic] = {}`. -/
def waitForInit (topic : String) (st : BusState) : BusState :=
  { st with oneShot := updateA st.oneShot topic (Json.obj []) }

/-- The poll loop of `wait_for` run against an explicit event trace; the
end of the trace is the expiry of the timeout. `some pl` is the success
return, `none` the timeout path (which returns `{}`). Both exits pop the
slot. -/
def waitForLoop (topic : String) (st : BusState) : List WfEvent → BusState × Option Json
  | [] => ({ st with oneShot := eraseA st.oneShot topic }, none)
  | WfEvent.deliver tp p :: rest => waitForLoop topic (onMessageState st tp p) rest
  | WfEvent.poll :: rest =>
    let pl := (lookupA st.oneShot topic).getD (Json.obj [])
    if jTruthy pl then ({ st with oneShot := eraseA st.oneShot topic }, some pl)
    else waitForLoop topic st rest

/-- `MqttBus.wait_for`: create the slot, then poll until filled or timed
out; the timeout path returns `{}`. -/
def waitFor (topic : String) (st : BusState) (evs : List WfEvent) : BusState × Json :=
  match waitForLoop topic (waitForInit topic st) evs with
  | (st2, some pl) => (st2, pl)
  | (st2, none) => (st2, Json.obj [])

/-- First payload delivered on `topic` in a trace, if any. -/
def firstDeliveredOn (topic : String) : List WfEvent → Option Json
  | [] => none
  | WfEvent.deliver tp p :: rest =>
    if tp = topic then some p else firstDeliveredOn topic rest
  | WfEvent.poll :: rest => firstDeliveredOn topic rest

/-- Most recent payload delivered on `topic` in a trace, starting from
`dflt` (the freshly cleared slot value `{}`). -/
def lastDeliveredOn (topic : String) (dflt : Json) : List WfEvent → Json
  | [] => dflt
  | WfEvent.deliver tp p :: rest =>
    lastDeliveredOn topic (if tp = topic then p else dflt) rest
  | WfEvent.poll :: rest => lastDeliveredOn topic dflt rest

/-- One atomic step interleaved with an `rpc` caller: a dispatch by the
delivery thread or one iteration of the rpc poll loop. -/
inductive RpcEvent where
  | deliver (topic : String) (payload : Json) : RpcEvent
  | poll : RpcEvent

/-- The topic root RPC responses must come from:
`f"{Z2M_BASE}/bridge/response/"`. -/
def responseRoot : String := Z2M_BASE ++ "/bridge/response/"

/-- `dict.setdefault(k, v)`: insert only when the key is absent. -/
def setdefaultA (fields : List (String × Json)) (k : String) (v : Json) :
    List (String × Json) :=
  match lookupA fields k with
  | some _ => fields
  | none => fields ++ [(k, v)]

/-- The request body built by `MqttBus.rpc`: the caller payload with the
fresh correlation token set under both accepted field names. -/
def rpcBody (payload : List (String × Json)) (corr : String) : List (String × Json) :=
  setdefaultA (setdefaultA payload "transaction" (Json.str corr)) "id" (Json.str corr)

/-- The poll loop of `MqttBus.rpc` against an explicit event trace; the end
of the trace is the expiry of the timeout. Each poll iteration does
`hit = self._wait_by_key.pop(corr, None)` — removal happens at the moment
of the id match — and returns the payload only when the hit additionally
came from a response topic; `none` is the `TimeoutError` exit. -/
def rpcLoop (corr : String) (st : BusState) : List RpcEvent → BusState × Option Json
  | [] => (st, none)
  | RpcEvent.deliver tp p :: rest => rpcLoop corr (onMessageState st tp p) rest
  | RpcEvent.poll :: rest =>
    match lookupA st.waitByKey corr with
    | some hit =>
      let st2 : BusState := { st with waitByKey := eraseA st.waitByKey corr }
      if strStarts hit.1 responseRoot then (st2, some hit.2)
      else rpcLoop corr st2 rest
    | none => rpcLoop corr st rest

/-- Outward-visible bus actions of a controller operation, in program
order: `subscribe_topic` (handler registration plus broker subscribe) and
`publish_json`. -/
inductive BusAction where
  | subscribeTopic (topic : String) : BusAction
  | publish (topic : String) (payload : Json) : BusAction

/-- Error kinds of `device_controller.py`: `ValueError` for failed
validation, `DeviceTimeoutError` for an elapsed confirmation wait. -/
inductive CtlError where
  | valueError : CtlError
  | deviceTimeout : CtlError
  deriving DecidableEq

/-- `MqttBus.subscribe_topic`: store/replace the exact-topic handler. -/
def subscribeTopic (st : BusState) (topic : String) (h : Handler) : BusState :=
  { st with topicHandlers := updateA st.topicHandlers topic h }

/-- The `state_handler` closure registered by `set_device_state`; its
capture of the confirmed payload is read back through the `confirm`
argument of `setDeviceState`. -/
def deviceStateHandler : Handler := fun _ _ => Except.ok ()

/-- The command payload built by `set_device_state`: present fields in
source order (`state`, `brightness`, `color_temp`, `transition`). -/
def deviceCommand (state : Option String) (brightness colorTemp : Option Int)
    (transition : Option Int) : List (String × Json) :=
  (match state with | some s => [("state", Json.str s)] | none => []) ++
  (match brightness with | some v => [("brightness", Json.num v)] | none => []) ++
  (match colorTemp with | some v => [("color_temp", Json.num v)] | none => []) ++
  (match transition with | some v => [("transition", Json.num v)] | none => [])

/-- The command payload built by `set_group_state` (no transition field). -/
def groupCommand (state : Option String) (brightness colorTemp : Option Int) :
    List (String × Json) :=
  (match state with | some s => [("state", Json.str s)] | none => []) ++
  (match brightness with | some v => [("brightness", Json.num v)] | none => []) ++
  (match colorTemp with | some v => [("color_temp", Json.num v)] | none => [])

/-- `DeviceController.set_device_state`: validate, register the state
handler on the device state topic, publish the command to the `/set`
topic, then block on the confirmation event. The `threading.Event` wait is
abstracted by `confirm`: `some pl` when the handler captured `pl` before
the timeout, `none` when the event never fired. Returns the emitted bus
actions in program order, the updated bus, and the outcome. -/
def setDeviceState (friendlyName : String) (state : Option String)
    (brightness colorTemp transition : Option Int) (confirm : Option Json)
    (st : BusState) : List BusAction × BusState × Except CtlError Json :=
  let command := deviceCommand state brightness colorTemp transition
  if command.isEmpty then ([], st, Except.error CtlError.valueError)
  else
    let stateTopic := Z2M_BASE ++ "/" ++ friendlyName
    let st2 := subscribeTopic st stateTopic deviceStateHandler
    let setTopic := Z2M_BASE ++ "/" ++ friendlyName ++ "/set"
    let trace := [BusAction.subscribeTopic stateTopic,
                  BusAction.publish setTopic (Json.obj command)]
    match confirm with
    | some pl => (trace, st2, Except.ok pl)
    | none => (trace, st2, Except.error CtlError.deviceTimeout)

/-- `DeviceController.set_group_state`: validate, publish to the group's
`/set` topic, and return the sent acknowledgment immediately — no handler
registration and no wait. -/
def setGroupState (groupName : String) (state : Option String)
    (brightness colorTemp : Option Int) (st : BusState) :
    List BusAction × BusState × Except CtlError Json :=
  let command := groupCommand state brightness colorTemp
  if command.isEmpty then ([], st, Except.error CtlError.valueError)
  else
    let setTopic := Z2M_BASE ++ "/" ++ groupName ++ "/set"
    ([BusAction.publish setTopic (Json.obj command)], st,
     Except.ok (Json.obj [("success", Json.bool true), ("command", Json.obj command)]))

/-- `DeviceController.get_device_state`: `wait_for` on the device state
topic, raising `DeviceTimeoutError` when the result is falsy. -/
def getDeviceState (friendlyName : String) (st : BusState) (evs : List WfEvent) :
    BusState × Except CtlError Json :=
  let r := waitFor (Z2M_BASE ++ "/" ++ friendlyName) st evs
  if jTruthy r.2 then (r.1, Except.ok r.2) else (r.1, Except.error CtlError.deviceTimeout)

theorem groupCommand_isEmpty_false {s : Option String} {b c : Option Int}
    (h : groupCommand s b c ≠ []) : (groupCommand s b c).isEmpty = false := by
  cases hg : groupCommand s b c with
  | nil => exact absurd hg h
  | cons x xs => simp [List.isEmpty]

theorem deviceCommand_isEmpty_false {s : Option String} {b c t : Option Int}
    (h : deviceCommand s b c t ≠ []) : (deviceCommand s b c t).isEmpty = false := by
  cases hg : deviceCommand s b c t with
  | nil => exact absurd hg h
  | cons x xs => simp [List.isEmpty]

/-- C2: a `set_device_state` call in which all four control fields are
absent, and a `set_group_state` call in which all three are absent, raise
the validation error with no action emitted — nothing is published, no
handler is registered, and the bus state is untouched. -/
theorem claim_C2_validation_no_side_effect (fn gn : String) (confirm : Option Json)
    (st stg : BusState) :
    setDeviceState fn none none none none confirm st =
      ([], st, Except.error CtlError.valueError) ∧
    setGroupState gn none none none stg =
      ([], stg, Except.error CtlError.valueError) := by
  constructor
  · rfl
  · rfl

/-- C9: a `set_group_state` call with at least one control field publishes
the command to the group's `/set` topic and immediately returns the
`{"success": True, "command": command}` acknowledgment — it registers no
state handler, leaves the bus untouched, and never produces a timeout
error. -/
theorem claim_C9_group_fire_and_forget (gn : String) (s : Option String)
    (b c : Option Int) (st : BusState) (h : groupCommand s b c ≠ []) :
    setGroupState gn s b c st =
      ([BusAction.publish (Z2M_BASE ++ "/" ++ gn ++ "/set") (Json.obj (groupCommand s b c))],
       st,
       Except.ok (Json.obj [("success", Json.bool true),
                            ("command", Json.obj (groupCommand s b c))])) ∧
    (∀ t, BusAction.subscribeTopic t ∉ (setGroupState gn s b c st).1) ∧
    (setGroupState gn s b c st).2.2 ≠ Except.error CtlError.deviceTimeout := by
  have he := groupCommand_isEmpty_false h
  refine ⟨?_, ?_, ?_⟩
  · simp [setGroupState, he]
  · intro t
    simp [setGroupState, he]
  · simp [setGroupState, he]

theorem claim_C9_group_fire_and_forget_w :
    setGroupState "LivingRoom" (some "ON") none none emptyBus =
      ([BusAction.publish (Z2M_BASE ++ "/" ++ "LivingRoom" ++ "/set")
          (Json.obj (groupCommand (some "ON") none none))],
       emptyBus,
       Except.ok (Json.obj [("success", Json.bool true),
                            ("command", Json.obj (groupCommand (some "ON") none none))])) :=
  (claim_C9_group_fire_and_forget "LivingRoom" (some "ON") none none emptyBus
    (by simp [groupCommand])).1

/-- C1: every `set_device_state` call that passes validation emits exactly
the registration of the state-topic handler followed by the publish to the
`/set` command topic; the handler is present in the router's exact-topic
table in the resulting bus state, and no publish occurs at any trace
position that is not preceded by the registration. -/
theorem claim_C1_register_before_publish (fn : String) (s : Option String)
    (b c tr : Option Int) (confirm : Option Json) (st : BusState)
    (h : deviceCommand s b c tr ≠ []) :
    (setDeviceState fn s b c tr confirm st).1 =
      [BusAction.subscribeTopic (Z2M_BASE ++ "/" ++ fn),
       BusAction.publish (Z2M_BASE ++ "/" ++ fn ++ "/set")
         (Json.obj (deviceCommand s b c tr))] ∧
    (∃ hh, lookupA ((setDeviceState fn s b c tr confirm st).2.1).topicHandlers
        (Z2M_BASE ++ "/" ++ fn) = some hh) ∧
    (∀ i t2 p2,
      (setDeviceState fn s b c tr confirm st).1.get? i = some (BusAction.publish t2 p2) →
      ∃ j, j < i ∧ (setDeviceState fn s b c tr confirm st).1.get? j =
        some (BusAction.subscribeTopic (Z2M_BASE ++ "/" ++ fn))) := by
  have he := deviceCommand_isEmpty_false h
  have htrace : (setDeviceState fn s b c tr confirm st).1 =
      [BusAction.subscribeTopic (Z2M_BASE ++ "/" ++ fn),
       BusAction.publish (Z2M_BASE ++ "/" ++ fn ++ "/set")
         (Json.obj (deviceCommand s b c tr))] := by
    cases confirm with
    | none => simp [setDeviceState, he]
    | some pl => simp [setDeviceState, he]
  have hbus : (setDeviceState fn s b c tr confirm st).2.1 =
      subscribeTopic st (Z2M_BASE ++ "/" ++ fn) deviceStateHandler := by
    cases confirm with
    | none => simp [setDeviceState, he]
    | some pl => simp [setDeviceState, he]
  refine ⟨htrace, ?_, ?_⟩
  · refine ⟨deviceStateHandler, ?_⟩
    rw [hbus]
    exact lookupA_updateA_self st.topicHandlers (Z2M_BASE ++ "/" ++ fn) deviceStateHandler
  · intro i t2 p2 hi
    rw [htrace] at hi
    match i with
    | 0 => simp [List.get?] at hi
    | 1 => exact ⟨0, by omega, by rw [htrace]; rfl⟩
    | (n + 2) => simp [List.get?] at hi

theorem claim_C1_register_before_publish_w :
    (setDeviceState "Light1" (some "ON") none none none none emptyBus).1 =
      [BusAction.subscribeTopic (Z2M_BASE ++ "/" ++ "Light1"),
       BusAction.publish (Z2M_BASE ++ "/" ++ "Light1" ++ "/set")
         (Json.obj (deviceCommand (some "ON") none none none))] :=
  (claim_C1_register_before_publish "Light1" (some "ON") none none none none emptyBus
    (by simp [deviceCommand])).1

/-- C7 counterexample: the empty byte sequence does not parse as JSON
(`json.loads("")` raises — here an oracle under which no string parses, so
in particular not the empty one), yet `_try_json` returns the empty object
`{}` rather than a `_raw` wrapper, because of the `if s else {}` shortcut. -/
theorem claim_C7_empty_bytes_cex :
    tryJson (some "") "" (fun _ => none) = Json.obj [] ∧
    (fun _ => (none : Option Json)) "" = none ∧
    Json.obj ([] : List (String × Json)) ≠ Json.obj [("_raw", Json.str "")] := by
  refine ⟨rfl, rfl, ?_⟩
  intro h
  simp at h

/-- C7 as amended: every NONEMPTY byte sequence that does not parse as
JSON — either the strict decode raises, or the decoded text is nonempty
and `json.loads` raises on it — is wrapped as the single-field object
`{"_raw": <lossy-decoded text>}`; the parse never raises, and dispatching
the wrapped payload completes normally, in particular it inserts no
correlation entry (the wrapper carries no correlation field). The empty
byte sequence instead yields the empty object. -/
theorem claim_C7_raw_wrapping (strict : Option String) (lossy : String)
    (loads : String → Option Json)
    (h : strict = none ∨ ∃ s, strict = some s ∧ s ≠ "" ∧ loads s = none) :
    tryJson strict lossy loads = Json.obj [("_raw", Json.str lossy)] ∧
    (∀ st t, ((onMessage st t (Json.obj [("_raw", Json.str lossy)])).1).waitByKey =
      st.waitByKey) := by
  constructor
  · rcases h with h | ⟨s, hs, hne, hl⟩
    · simp [tryJson, h]
    · simp [tryJson, hs, hne, hl]
  · intro st t
    have hk : corrKey [("_raw", Json.str lossy)] = "" := rfl
    simp [onMessage, hk]

theorem claim_C7_raw_wrapping_w :
    tryJson (some "hello world") "hello world" (fun _ => none) =
      Json.obj [("_raw", Json.str "hello world")] :=
  (claim_C7_raw_wrapping (some "hello world") "hello world" (fun _ => none)
    (Or.inr ⟨"hello world", rfl, by simp, rfl⟩)).1

/-- C8: dispatch completes for every inbound message regardless of what
the registered handlers do — the handler outcomes (including raised
exceptions, `Except.error`) are recorded and swallowed, never propagated.
Quantifying over arbitrary handler tables: every fan-out handler whose key
prefixes the topic is invoked (even when another handler raised), the
exact-topic handler is invoked when registered, and the dispatch still
performs the correlation-entry insertion and the snapshot-slot fill. -/
theorem claim_C8_dispatch_completes (st : BusState) (topic : String) (payload : Json) :
    (∀ pfx hh, (pfx, hh) ∈ st.fanHandlers → strStarts topic pfx = true →
      (pfx, hh topic payload) ∈ (onMessage st topic payload).2) ∧
    (∀ hh, lookupA st.topicHandlers topic = some hh →
      (topic, hh topic payload) ∈ (onMessage st topic payload).2) ∧
    (∀ fields, payload = Json.obj fields → corrKey fields ≠ "" →
      lookupA ((onMessage st topic payload).1).waitByKey (corrKey fields) =
        some (topic, payload)) ∧
    (∀ v, lookupA st.oneShot topic = some v →
      lookupA ((onMessage st topic payload).1).oneShot topic = some payload) := by
  refine ⟨?_, ?_, ?_, ?_⟩
  · intro pfx hh hmem hpre
    simp only [onMessage, List.mem_append]
    right
    exact List.mem_map.mpr ⟨(pfx, hh), List.mem_filter.mpr ⟨hmem, by simp [hpre]⟩, rfl⟩
  · intro hh hl
    simp only [onMessage, List.mem_append, hl]
    left
    simp
  · intro fields hp hk
    subst hp
    simp only [onMessage, hk, if_neg hk]
    exact lookupA_updateA_self _ _ _
  · intro v hv
    simp only [onMessage, hv]
    exact lookupA_updateA_self _ _ _

/-- A handler that raises on every invocation. -/
def failingHandler : Handler := fun _ _ => Except.error "boom"

/-- A handler that returns normally. -/
def okHandler : Handler := fun _ _ => Except.ok ()

/-- A bus whose first fan-out handler raises, with an exact handler that
also raises, a second fan-out handler, and a snapshot slot. -/
def busWithThrowingHandler : BusState :=
  ⟨[("zigbee2mqtt/Light1", failingHandler)],
   [("zigbee2mqtt", failingHandler), ("zigbee2mqtt/Light1", okHandler)],
   [],
   [("zigbee2mqtt/Light1", Json.obj [])]⟩

theorem claim_C8_dispatch_completes_w :
    ("zigbee2mqtt/Light1",
        okHandler "zigbee2mqtt/Light1" (Json.obj [("transaction", Json.str "t1")])) ∈
      (onMessage busWithThrowingHandler "zigbee2mqtt/Light1"
        (Json.obj [("transaction", Json.str "t1")])).2 ∧
    lookupA ((onMessage busWithThrowingHandler "zigbee2mqtt/Light1"
        (Json.obj [("transaction", Json.str "t1")])).1).waitByKey
        (corrKey [("transaction", Json.str "t1")]) =
      some ("zigbee2mqtt/Light1", Json.obj [("transaction", Json.str "t1")]) ∧
    lookupA ((onMessage busWithThrowingHandler "zigbee2mqtt/Light1"
        (Json.obj [("transaction", Json.str "t1")])).1).oneShot "zigbee2mqtt/Light1" =
      some (Json.obj [("transaction", Json.str "t1")]) := by
  have T := claim_C8_dispatch_completes busWithThrowingHandler "zigbee2mqtt/Light1"
    (Json.obj [("transaction", Json.str "t1")])
  refine ⟨?_, ?_, ?_⟩
  · exact T.1 "zigbee2mqtt/Light1" okHandler
      (List.mem_cons_of_mem _ (List.mem_cons_self _ _)) (by decide)
  · exact T.2.2.1 [("transaction", Json.str "t1")] rfl (by decide)
  · exact T.2.2.2 (Json.obj []) rfl

theorem onMessageState_oneShot_self (st : BusState) (topic : String) (p : Json)
    (h : (lookupA st.oneShot topic).isSome = true) :
    lookupA (onMessageState st topic p).oneShot topic = some p := by
  cases hv : lookupA st.oneShot topic with
  | none => rw [hv] at h; simp at h
  | some v => simp [onMessageState, onMessage, hv, lookupA_updateA_self]

theorem onMessageState_oneShot_ne (st : BusState) (tp t : String) (p : Json)
    (h : tp ≠ t) :
    lookupA (onMessageState st tp p).oneShot t = lookupA st.oneShot t := by
  cases hv : lookupA st.oneShot tp with
  | none => simp [onMessageState, onMessage, hv]
  | some v =>
    simp [onMessageState, onMessage, hv,
          lookupA_updateA_ne st.oneShot tp t p (Ne.symm h)]

theorem waitForLoop_clears (t : String) :
    ∀ (evs : List WfEvent) (st : BusState),
    lookupA ((waitForLoop t st evs).1).oneShot t = none := by
  intro evs
  induction evs with
  | nil => intro st; simp [waitForLoop, lookupA_eraseA_self]
  | cons e rest ih =>
    intro st
    cases e with
    | deliver tp p =>
      simp only [waitForLoop]
      exact ih _
    | poll =>
      by_cases hp : jTruthy ((lookupA st.oneShot t).getD (Json.obj [])) = true
      · simp [waitForLoop, hp, lookupA_eraseA_self]
      · simp only [waitForLoop, hp, if_false, Bool.false_eq_true, if_neg]
        exact ih st

theorem waitFor_fst (t : String) (st : BusState) (evs : List WfEvent) :
    (waitFor t st evs).1 = (waitForLoop t (waitForInit t st) evs).1 := by
  unfold waitFor
  cases h : waitForLoop t (waitForInit t st) evs with
  | mk st2 r => cases r <;> simp

theorem waitFor_snd_of_none (t : String) (st : BusState) (evs : List WfEvent)
    (h : (waitForLoop t (waitForInit t st) evs).2 = none) :
    (waitFor t st evs).2 = Json.obj [] := by
  unfold waitFor
  cases hr : waitForLoop t (waitForInit t st) evs with
  | mk st2 r =>
    rw [hr] at h
    simp at h
    subst h
    simp

/-- C6: on every execution of `wait_for` — success or timeout — the
snapshot slot for the topic is popped before the call returns, and a fresh
call starts by resetting the slot to the empty placeholder, so no value
survives from one call to the next. -/
theorem claim_C6_slot_cleared (t : String) (st : BusState) (evs : List WfEvent) :
    lookupA ((waitFor t st evs).1).oneShot t = none ∧
    lookupA (waitForInit t st).oneShot t = some (Json.obj []) := by
  constructor
  · rw [waitFor_fst]
    exact waitForLoop_clears t evs (waitForInit t st)
  · exact lookupA_updateA_self st.oneShot t (Json.obj [])

theorem waitForLoop_all_empty (t : String) :
    ∀ (evs : List WfEvent) (st : BusState),
    (∀ p, WfEvent.deliver t p ∈ evs → p = Json.obj []) →
    lookupA st.oneShot t = some (Json.obj []) →
    (waitForLoop t st evs).2 = none := by
  intro evs
  induction evs with
  | nil => intro st h hs; simp [waitForLoop]
  | cons e rest ih =>
    intro st h hs
    cases e with
    | deliver tp p =>
      by_cases htp : tp = t
      · subst htp
        have hp : p = Json.obj [] := h p (List.mem_cons_self _ _)
        subst hp
        have hs2 : lookupA (onMessageState st tp (Json.obj [])).oneShot tp =
            some (Json.obj []) :=
          onMessageState_oneShot_self st tp (Json.obj []) (by rw [hs]; rfl)
        simp only [waitForLoop]
        exact ih _ (fun q hq => h q (List.mem_cons_of_mem _ hq)) hs2
      · have hs2 : lookupA (onMessageState st tp p).oneShot t = some (Json.obj []) := by
          rw [onMessageState_oneShot_ne st tp t p htp]
          exact hs
        simp only [waitForLoop]
        exact ih _ (fun q hq => h q (List.mem_cons_of_mem _ hq)) hs2
    | poll =>
      have hacc : (lookupA st.oneShot t).getD (Json.obj []) = Json.obj [] := by
        rw [hs]; rfl
      simp only [waitForLoop, hacc]
      simp only [jTruthy, List.isEmpty, Bool.not_true, Bool.false_eq_true, if_false]
      exact ih st (fun q hq => h q (List.mem_cons_of_mem _ hq)) hs

/-- C10: a delivered payload that parses to the empty object never
satisfies a `wait_for` — the poll's truthiness test treats the slot as
unfilled — so when every message delivered on the device's state topic is
the empty object (e.g. an empty-byte publish), `wait_for` exits through
the timeout path returning `{}`, and `get_device_state` raises its timeout
error even though the device published within the timeout. -/
theorem claim_C10_empty_payload_timeout (fn : String) (st : BusState)
    (evs : List WfEvent)
    (h : ∀ p, WfEvent.deliver (Z2M_BASE ++ "/" ++ fn) p ∈ evs → p = Json.obj []) :
    (waitForLoop (Z2M_BASE ++ "/" ++ fn)
      (waitForInit (Z2M_BASE ++ "/" ++ fn) st) evs).2 = none ∧
    (waitFor (Z2M_BASE ++ "/" ++ fn) st evs).2 = Json.obj [] ∧
    (getDeviceState fn st evs).2 = Except.error CtlError.deviceTimeout := by
  have h1 := waitForLoop_all_empty (Z2M_BASE ++ "/" ++ fn) evs
    (waitForInit (Z2M_BASE ++ "/" ++ fn) st) h
    (lookupA_updateA_self st.oneShot (Z2M_BASE ++ "/" ++ fn) (Json.obj []))
  have h2 := waitFor_snd_of_none (Z2M_BASE ++ "/" ++ fn) st evs h1
  refine ⟨h1, h2, ?_⟩
  simp [getDeviceState, h2, jTruthy, List.isEmpty]

theorem claim_C10_empty_payload_timeout_w :
    (getDeviceState "Light1" emptyBus
      [WfEvent.deliver (Z2M_BASE ++ "/" ++ "Light1") (Json.obj []), WfEvent.poll]).2 =
      Except.error CtlError.deviceTimeout :=
  (claim_C10_empty_payload_timeout "Light1" emptyBus
    [WfEvent.deliver (Z2M_BASE ++ "/" ++ "Light1") (Json.obj []), WfEvent.poll]
    (by intro p hp; simpa using hp)).2.2

theorem waitForLoop_success_origin (t : String) :
    ∀ (evs : List WfEvent) (st st2 : BusState) (acc pl : Json),
    lookupA st.oneShot t = some acc →
    waitForLoop t st evs = (st2, some pl) →
    jTruthy pl = true ∧
      ∃ pre post, evs = pre ++ WfEvent.poll :: post ∧ pl = lastDeliveredOn t acc pre := by
  intro evs
  induction evs with
  | nil =>
    intro st st2 acc pl hs hw
    simp [waitForLoop] at hw
  | cons e rest ih =>
    intro st st2 acc pl hs hw
    cases e with
    | deliver tp p =>
      simp only [waitForLoop] at hw
      by_cases htp : tp = t
      · subst htp
        have hs2 : lookupA (onMessageState st tp p).oneShot tp = some p :=
          onMessageState_oneShot_self st tp p (by rw [hs]; rfl)
        obtain ⟨htr, pre, post, hsplit, hlast⟩ := ih _ _ _ _ hs2 hw
        refine ⟨htr, WfEvent.deliver tp p :: pre, post, by rw [hsplit]; rfl, ?_⟩
        rw [hlast]
        simp [lastDeliveredOn]
      · have hs2 : lookupA (onMessageState st tp p).oneShot t = some acc := by
          rw [onMessageState_oneShot_ne st tp t p htp]
          exact hs
        obtain ⟨htr, pre, post, hsplit, hlast⟩ := ih _ _ _ _ hs2 hw
        refine ⟨htr, WfEvent.deliver tp p :: pre, post, by rw [hsplit]; rfl, ?_⟩
        rw [hlast]
        simp [lastDeliveredOn, htp]
    | poll =>
      simp only [waitForLoop, hs, Option.getD_some] at hw
      by_cases hta : jTruthy acc = true
      · rw [if_pos hta] at hw
        have hpl : acc = pl := by
          have := congrArg Prod.snd hw
          simpa using this
        subst hpl
        exact ⟨hta, [], rest, rfl, rfl⟩
      · rw [if_neg hta] at hw
        obtain ⟨htr, pre, post, hsplit, hlast⟩ := ih _ _ _ _ hs hw
        exact ⟨htr, WfEvent.poll :: pre, post, by rw [hsplit]; rfl,
               by rw [hlast]; rfl⟩

/-- C3 as amended: when `wait_for` succeeds, the payload returned is the
MOST RECENT payload delivered on the topic before the first poll that
observes the slot truthy — because dispatch overwrites a filled slot, a
second delivery landing before that poll replaces the first, so the first
payload is returned only when no later delivery precedes the consuming
poll. The returned payload is always truthy. If no message arrives on the
topic during the wait, the call returns the empty result through the
timeout path. -/
theorem claim_C3_wait_returns_recent_delivery (t : String) (st st2 : BusState)
    (evs : List WfEvent) (pl : Json) :
    (waitForLoop t (waitForInit t st) evs = (st2, some pl) →
      jTruthy pl = true ∧
      ∃ pre post, evs = pre ++ WfEvent.poll :: post ∧
        pl = lastDeliveredOn t (Json.obj []) pre) ∧
    ((∀ p, WfEvent.deliver t p ∈ evs → False) →
      (waitFor t st evs).2 = Json.obj []) := by
  constructor
  · intro hw
    exact waitForLoop_success_origin t evs _ _ _ _
      (lookupA_updateA_self st.oneShot t (Json.obj [])) hw
  · intro h
    have h1 := waitForLoop_all_empty t evs (waitForInit t st)
      (fun p hp => absurd hp (h p))
      (lookupA_updateA_self st.oneShot t (Json.obj []))
    exact waitFor_snd_of_none t st evs h1

theorem claim_C3_wait_returns_recent_delivery_w :
    jTruthy (Json.obj [("state", Json.str "ON")]) = true ∧
    (waitFor "zigbee2mqtt/Light1" emptyBus [WfEvent.poll]).2 = Json.obj [] :=
  ⟨((claim_C3_wait_returns_recent_delivery "zigbee2mqtt/Light1" emptyBus emptyBus
      [WfEvent.deliver "zigbee2mqtt/Light1" (Json.obj [("state", Json.str "ON")]),
       WfEvent.poll]
      (Json.obj [("state", Json.str "ON")])).1 rfl).1,
   (claim_C3_wait_returns_recent_delivery "zigbee2mqtt/Light1" emptyBus emptyBus
      [WfEvent.poll] (Json.obj [])).2 (by intro p hp; simp at hp)⟩

/-- C3 counterexample: two payloads are delivered on the topic before the
caller's first poll; the first delivered payload is `{"brightness": 10}`,
but `wait_for` returns `{"brightness": 20}` — the dispatch overwrote the
slot — so the value returned on success is NOT the first payload
delivered after the slot was created. -/
theorem claim_C3_first_payload_cex :
    firstDeliveredOn "zigbee2mqtt/Light1"
      [WfEvent.deliver "zigbee2mqtt/Light1" (Json.obj [("brightness", Json.num 10)]),
       WfEvent.deliver "zigbee2mqtt/Light1" (Json.obj [("brightness", Json.num 20)]),
       WfEvent.poll] = some (Json.obj [("brightness", Json.num 10)]) ∧
    (waitFor "zigbee2mqtt/Light1" emptyBus
      [WfEvent.deliver "zigbee2mqtt/Light1" (Json.obj [("brightness", Json.num 10)]),
       WfEvent.deliver "zigbee2mqtt/Light1" (Json.obj [("brightness", Json.num 20)]),
       WfEvent.poll]).2 = Json.obj [("brightness", Json.num 20)] ∧
    Json.obj [("brightness", Json.num 10)] ≠ Json.obj [("brightness", Json.num 20)] := by
  refine ⟨rfl, rfl, ?_⟩
  intro h
  simp at h

theorem onMessageState_waitByKey_hit (st : BusState) (tp : String)
    (fields : List (String × Json)) (h : corrKey fields ≠ "") :
    lookupA (onMessageState st tp (Json.obj fields)).waitByKey (corrKey fields) =
      some (tp, Json.obj fields) := by
  simp only [onMessageState, onMessage, if_neg h]
  exact lookupA_updateA_self _ _ _

theorem onMessageState_waitByKey_preserve (st : BusState) (tp : String) (p : Json)
    (corr : String)
    (h : ∀ fields, p = Json.obj fields → corrKey fields = "" ∨ corrKey fields ≠ corr) :
    lookupA (onMessageState st tp p).waitByKey corr = lookupA st.waitByKey corr := by
  cases p with
  | null => simp [onMessageState, onMessage]
  | bool b => simp [onMessageState, onMessage]
  | num n => simp [onMessageState, onMessage]
  | str s => simp [onMessageState, onMessage]
  | arr xs => simp [onMessageState, onMessage]
  | obj fields =>
    by_cases hk : corrKey fields = ""
    · simp [onMessageState, onMessage, hk]
    · rcases h fields rfl with hk2 | hk2
      · exact absurd hk2 hk
      · simp only [onMessageState, onMessage, if_neg hk]
        exact lookupA_updateA_ne st.waitByKey (corrKey fields) corr _ (Ne.symm hk2)

theorem rpcLoop_no_match (corr : String) :
    ∀ (evs : List RpcEvent) (st : BusState),
    lookupA st.waitByKey corr = none →
    (∀ tp fields, RpcEvent.deliver tp (Json.obj fields) ∈ evs → corrKey fields ≠ corr) →
    (rpcLoop corr st evs).2 = none ∧
    lookupA ((rpcLoop corr st evs).1).waitByKey corr = none := by
  intro evs
  induction evs with
  | nil => intro st hs h; simp [rpcLoop, hs]
  | cons e rest ih =>
    intro st hs h
    cases e with
    | deliver tp p =>
      have hs2 : lookupA (onMessageState st tp p).waitByKey corr = none := by
        rw [onMessageState_waitByKey_preserve st tp p corr
          (fun fields hf =>
            Or.inr (h tp fields (by rw [← hf]; exact List.mem_cons_self _ _)))]
        exact hs
      simp only [rpcLoop]
      exact ih _ hs2 (fun tp2 f2 hm => h tp2 f2 (List.mem_cons_of_mem _ hm))
    | poll =>
      simp only [rpcLoop, hs]
      exact ih st hs (fun tp2 f2 hm => h tp2 f2 (List.mem_cons_of_mem _ hm))

theorem rpcLoop_success_origin (corr : String) :
    ∀ (evs : List RpcEvent) (st st2 : BusState) (pl : Json),
    rpcLoop corr st evs = (st2, some pl) →
    (∃ tp, lookupA st.waitByKey corr = some (tp, pl) ∧ strStarts tp responseRoot = true) ∨
    (∃ tp fields, pl = Json.obj fields ∧ corrKey fields = corr ∧
      RpcEvent.deliver tp pl ∈ evs ∧ strStarts tp responseRoot = true) := by
  intro evs
  induction evs with
  | nil => intro st st2 pl hw; simp [rpcLoop] at hw
  | cons e rest ih =>
    intro st st2 pl hw
    cases e with
    | deliver tp p =>
      simp only [rpcLoop] at hw
      rcases ih _ _ _ hw with ⟨tp0, hl, hresp⟩ | ⟨tp0, fields, h1, h2, h3, h4⟩
      · by_cases hcase : ∃ fields, p = Json.obj fields ∧ corrKey fields = corr ∧
            corrKey fields ≠ ""
        · obtain ⟨fields, hp, hkey, hne⟩ := hcase
          subst hp
          have hhit := onMessageState_waitByKey_hit st tp fields hne
          rw [hkey] at hhit
          have heq := Option.some.inj (hl.symm.trans hhit)
          injection heq with he1 he2
          right
          refine ⟨tp, fields, he2, hkey, ?_, he1 ▸ hresp⟩
          rw [he2]
          exact List.mem_cons_self _ _
        · left
          refine ⟨tp0, ?_, hresp⟩
          rw [onMessageState_waitByKey_preserve st tp p corr ?hpres] at hl
          · exact hl
          case hpres =>
            intro fields hf
            by_cases hk : corrKey fields = ""
            · exact Or.inl hk
            · refine Or.inr ?_
              intro hkc
              exact hcase ⟨fields, hf, hkc, hk⟩
      · right
        exact ⟨tp0, fields, h1, h2, List.mem_cons_of_mem _ h3, h4⟩
    | poll =>
      cases hl : lookupA st.waitByKey corr with
      | some hit =>
        obtain ⟨tp1, pl1⟩ := hit
        simp only [rpcLoop, hl] at hw
        by_cases hresp : strStarts tp1 responseRoot = true
        · rw [if_pos hresp] at hw
          have he2 : some pl1 = some pl := congrArg Prod.snd hw
          have he2b := Option.some.inj he2
          subst he2b
          left
          exact ⟨tp1, rfl, hresp⟩
        · rw [if_neg hresp] at hw
          rcases ih _ _ _ hw with ⟨tp0, hl2, hresp2⟩ | ⟨tp0, fields, h1, h2, h3, h4⟩
          · simp [lookupA_eraseA_self] at hl2
          · right
            exact ⟨tp0, fields, h1, h2, List.mem_cons_of_mem _ h3, h4⟩
      | none =>
        simp only [rpcLoop, hl] at hw
        rcases ih _ _ _ hw with ⟨tp0, hl2, hresp2⟩ | ⟨tp0, fields, h1, h2, h3, h4⟩
        · rw [hl] at hl2
          exact absurd hl2 (by simp)
        · right
          exact ⟨tp0, fields, h1, h2, List.mem_cons_of_mem _ h3, h4⟩

theorem rpcLoop_success_consumed (corr : String) :
    ∀ (evs : List RpcEvent) (st st2 : BusState) (pl : Json),
    rpcLoop corr st evs = (st2, some pl) →
    lookupA st2.waitByKey corr = none := by
  intro evs
  induction evs with
  | nil => intro st st2 pl hw; simp [rpcLoop] at hw
  | cons e rest ih =>
    intro st st2 pl hw
    cases e with
    | deliver tp p =>
      simp only [rpcLoop] at hw
      exact ih _ _ _ hw
    | poll =>
      cases hl : lookupA st.waitByKey corr with
      | some hit =>
        obtain ⟨tp1, pl1⟩ := hit
        simp only [rpcLoop, hl] at hw
        by_cases hresp : strStarts tp1 responseRoot = true
        · rw [if_pos hresp] at hw
          have he1 : BusState.mk st.topicHandlers st.fanHandlers
              (eraseA st.waitByKey corr) st.oneShot = st2 := congrArg Prod.fst hw
          rw [← he1]
          exact lookupA_eraseA_self _ _
        · rw [if_neg hresp] at hw
          exact ih _ _ _ hw
      | none =>
        simp only [rpcLoop, hl] at hw
        exact ih _ _ _ hw

/-- C5: an `rpc` call returns a payload only when that payload arrived on
a topic under the `<namespace>/bridge/response/` root carrying the call's
correlation id; and when every message delivered during the wait carries a
correlation key different from the call's id, the call exits through the
timeout path. -/
theorem claim_C5_response_topic_required (corr : String) (st st2 : BusState)
    (evs : List RpcEvent) (pl : Json) :
    (lookupA st.waitByKey corr = none →
      rpcLoop corr st evs = (st2, some pl) →
      ∃ tp fields, pl = Json.obj fields ∧ corrKey fields = corr ∧
        RpcEvent.deliver tp pl ∈ evs ∧ strStarts tp responseRoot = true) ∧
    ((∀ tp fields, RpcEvent.deliver tp (Json.obj fields) ∈ evs → corrKey fields ≠ corr) →
      lookupA st.waitByKey corr = none →
      (rpcLoop corr st evs).2 = none) := by
  constructor
  · intro hs hw
    rcases rpcLoop_success_origin corr evs st st2 pl hw with
      ⟨tp, hl, _⟩ | ⟨tp, fields, h1, h2, h3, h4⟩
    · rw [hs] at hl
      exact absurd hl (by simp)
    · exact ⟨tp, fields, h1, h2, h3, h4⟩
  · intro h hs
    exact (rpcLoop_no_match corr evs st hs h).1

theorem claim_C5_response_topic_required_w :
    (rpcLoop "abc" emptyBus
      [RpcEvent.deliver (responseRoot ++ "health_check")
        (Json.obj [("transaction", Json.str "zzz")]),
       RpcEvent.poll]).2 = none :=
  (claim_C5_response_topic_required "abc" emptyBus emptyBus
    [RpcEvent.deliver (responseRoot ++ "health_check")
      (Json.obj [("transaction", Json.str "zzz")]),
     RpcEvent.poll] (Json.obj [])).2
    (by
      intro tp fields hm
      simp at hm
      rw [hm.2]
      decide)
    rfl

/-- C4 as amended: a correlation entry is popped the moment a poll of the
rpc loop finds the call's id — its payload is returned as the terminal
success state only when the entry's topic additionally lies under the
response root; a matching entry from a non-response topic is removed and
DISCARDED and the call keeps polling (possibly to a timeout). When no
matching entry ever appears, no entry for the id is ever present or
removed and the call exits through the timeout path; on success the entry
stays consumed. -/
theorem claim_C4_removal_semantics (corr : String) (st : BusState)
    (evs : List RpcEvent) :
    ((∀ tp fields, RpcEvent.deliver tp (Json.obj fields) ∈ evs → corrKey fields ≠ corr) →
      lookupA st.waitByKey corr = none →
      (rpcLoop corr st evs).2 = none ∧
      lookupA ((rpcLoop corr st evs).1).waitByKey corr = none) ∧
    (∀ tp pl rest, lookupA st.waitByKey corr = some (tp, pl) →
      strStarts tp responseRoot = false →
      rpcLoop corr st (RpcEvent.poll :: rest) =
        rpcLoop corr { st with waitByKey := eraseA st.waitByKey corr } rest) ∧
    (∀ st2 pl, rpcLoop corr st evs = (st2, some pl) →
      lookupA st2.waitByKey corr = none) := by
  refine ⟨fun h hs => rpcLoop_no_match corr evs st hs h, ?_, ?_⟩
  · intro tp pl rest hl hresp
    simp only [rpcLoop, hl, hresp]
    simp
  · exact fun st2 pl hw => rpcLoop_success_consumed corr evs st st2 pl hw

/-- C4 counterexample: a message on the plain device topic
`zigbee2mqtt/Light1` whose payload happens to carry `"id": "abc"` creates
a correlation entry for id `"abc"`; the rpc poll then POPS that entry —
removing it from the table — without returning it (the topic is not under
the response root), and the call goes on to time out. So an entry carrying
the matching id IS removed without being returned, contradicting the
claim. -/
theorem claim_C4_removed_without_return_cex :
    lookupA (onMessageState emptyBus "zigbee2mqtt/Light1"
        (Json.obj [("id", Json.str "abc")])).waitByKey "abc" =
      some ("zigbee2mqtt/Light1", Json.obj [("id", Json.str "abc")]) ∧
    (rpcLoop "abc" (onMessageState emptyBus "zigbee2mqtt/Light1"
        (Json.obj [("id", Json.str "abc")])) [RpcEvent.poll]).2 = none ∧
    lookupA ((rpcLoop "abc" (onMessageState emptyBus "zigbee2mqtt/Light1"
        (Json.obj [("id", Json.str "abc")])) [RpcEvent.poll]).1).waitByKey "abc" =
      none :=
  ⟨rfl, rfl, rfl⟩

/-- A bus whose correlation table already holds a matching entry from a
non-response topic (as left by the dispatch in the counterexample). -/
def busNonResponseHit : BusState :=
  ⟨[], [], [("abc", ("zigbee2mqtt/Light1", Json.obj [("id", Json.str "abc")]))], []⟩

/-- A bus whose correlation table holds a matching entry from a response
topic. -/
def busResponseHit : BusState :=
  ⟨[], [], [("abc", ("zigbee2mqtt/bridge/response/health_check",
     Json.obj [("status", Json.str "ok")]))], []⟩

theorem claim_C4_removal_semantics_w :
    ((rpcLoop "abc" emptyBus [RpcEvent.poll]).2 = none ∧
      lookupA ((rpcLoop "abc" emptyBus [RpcEvent.poll]).1).waitByKey "abc" = none) ∧
    rpcLoop "abc" busNonResponseHit [RpcEvent.poll] =
      rpcLoop "abc"
        { busNonResponseHit with waitByKey := eraseA busNonResponseHit.waitByKey "abc" }
        [] ∧
    lookupA ((rpcLoop "abc" busResponseHit [RpcEvent.poll]).1).waitByKey "abc" = none :=
  ⟨(claim_C4_removal_semantics "abc" emptyBus [RpcEvent.poll]).1
      (by intro tp fields hm; simp at hm) rfl,
   (claim_C4_removal_semantics "abc" busNonResponseHit [RpcEvent.poll]).2.1
      "zigbee2mqtt/Light1" (Json.obj [("id", Json.str "abc")]) [] rfl rfl,
   (claim_C4_removal_semantics "abc" busResponseHit [RpcEvent.poll]).2.2
      { busResponseHit with waitByKey := [] }
      (Json.obj [("status", Json.str "ok")]) rfl⟩
